import Mathlib

/-!
Verification model of `main.py` from the repository
"Analysis of the Impact of Firm Characteristics on the Fog Index".

The program has two cores:

* class `Fog`: a Gunning-Fog readability scorer built on three regular
  expressions (a syllable counter, a word tokenizer, a sentence tokenizer);
* a family of per-issuer MD&A extractors (`BaseMDNA`, `AppleMDNA`,
  `NetflixMDNA`, `FacebookMDNA`, `AmazonMDNA`, `GoogleMDNA`) operating on
  lxml HTML trees.

The embedding below translates each Python function into an executable Lean
function.  Regular expressions are embedded as backtracking matchers that
implement the exact semantics of the concrete patterns appearing in the
source (leftmost scan, ordered alternation, greedy / lazy repetition with
backtracking, word boundaries).  Python's `\w` (which drives `\b`) is
modelled on its ASCII fragment `[A-Za-z0-9_]`; every string manipulated by
the claims is ASCII.  lxml documents are modelled as an ordinary rose tree
(tag, attributes, text, children, tail), which is the data model the Python
code accesses; parsing of raw bytes by lxml itself is external library
behaviour and is modelled by constructing the tree a given input parses to.
Python exceptions are modelled by an explicit result type `PyRes`; CPython's
float arithmetic is modelled by exact rational arithmetic (the decimal
literal `0.4` is the rational `2/5`; at every concrete value checked in this
file the IEEE-754 computation yields the same decimal value exactly).
-/

/-! ### Python string helpers -/

/-- Whitespace as used by Python's `str.split()` / `str.strip()`
(ASCII fragment). -/
def pyWhitespace (c : Char) : Bool :=
  c == ' ' || c == '\t' || c == '\n' || c == '\r' || c == '\x0b' || c == '\x0c'

/-- `str.strip()`: drop leading and trailing whitespace. -/
def pyStrip (s : String) : String :=
  (((s.data.dropWhile pyWhitespace).reverse.dropWhile pyWhitespace).reverse).asString

/-- Helper for `pySplit`: `acc` holds the (reversed) current chunk. -/
def pySplitAux : List Char → List Char → List (List Char)
  | acc, [] => if acc.isEmpty then [] else [acc.reverse]
  | acc, c :: cs =>
    if pyWhitespace c then
      if acc.isEmpty then pySplitAux [] cs else acc.reverse :: pySplitAux [] cs
    else
      pySplitAux (c :: acc) cs

/-- `str.split()` with no argument: split on runs of whitespace, dropping
empty chunks. -/
def pySplit (s : String) : List String :=
  (pySplitAux [] s.data).map List.asString

/-! ### Exception model -/

/-- The Python exceptions that the modelled code can raise. -/
inductive PyExn where
  | typeError
  | valueError
  | indexError
  | zeroDivisionError
deriving DecidableEq, Repr

/-- Result of running a piece of Python code: a value or a raised
exception. -/
inductive PyRes (α : Type) where
  | ok (a : α)
  | exn (e : PyExn)
deriving DecidableEq, Repr

/-! ### `Fog.count_syllables`

Python source:
`re_syllables = re.compile(r'(^|[^aeuoiy])(?!e$)[aeouiy]', re.IGNORECASE)`
and `count_syllables` returns `len(re_syllables.findall(word))`. -/

/-- The vowel class `[aeouiy]` of `re_syllables`, case-insensitively. -/
def isVowel (c : Char) : Bool :=
  c.toLower == 'a' || c.toLower == 'e' || c.toLower == 'u' ||
  c.toLower == 'o' || c.toLower == 'i' || c.toLower == 'y'

/-- Does `e$` match at the start of the remaining input?  (`$` in a Python
regex without `re.MULTILINE` matches at the end of the string or just
before a final newline; the `e` is case-insensitive.) -/
def eDollar : List Char → Bool
  | c :: rest => c.toLower == 'e' && (rest.isEmpty || rest == ['\n'])
  | [] => false

/-- Non-overlapping left-to-right scan of `(^|[^aeuoiy])(?!e$)[aeouiy]`:
at each position try the `^` alternative (only at the very start), then
the `[^aeuoiy]` alternative; on failure advance one character.  Returns the
number of matches (`findall` length). -/
def syllableScan : Bool → List Char → Nat
  | _, [] => 0
  | atStart, [c] =>
    -- a final position: only the `^` alternative can produce a match here
    if atStart && !eDollar [c] && isVowel c then 1 else 0
  | atStart, c :: v :: rest2 =>
    if atStart && !eDollar (c :: v :: rest2) && isVowel c then
      -- `^` consumed nothing, the lookahead passed, `[aeouiy]` matched `c`
      1 + syllableScan false (v :: rest2)
    else if !isVowel c then
      -- `[^aeuoiy]` matches `c`; then the lookahead and the vowel
      if !eDollar (v :: rest2) && isVowel v then 1 + syllableScan false rest2
      else syllableScan false (v :: rest2)
    else
      syllableScan false (v :: rest2)

/-- `Fog.count_syllables(word)`. -/
def Fog.count_syllables (word : String) : Nat :=
  syllableScan true word.data

/-- `Fog.is_complex_word(word)`: three or more syllables. -/
def Fog.is_complex_word (word : String) : Bool :=
  3 ≤ Fog.count_syllables word

/-! ### `Fog.identify_words`

Python source: `re.findall(r"\b[a-zA-Z\'\-]+\b", input_text)`. -/

/-- Python word character (`\w`), ASCII fragment: letters, digits,
underscore.  `\b` matches where exactly one neighbour is a word
character. -/
def isWordChar (c : Char) : Bool := c.isAlphanum || c == '_'

/-- The token class `[a-zA-Z'\-]`. -/
def isTokChar (c : Char) : Bool := c.isAlpha || c == '\x27' || c == '-'

/-- Word-character-ness of the character at offset `l` of `run ++ rest`
(one past the end of the input counts as a non-word position). -/
def wnext (run : List Char) (l : Nat) (rest : List Char) : Bool :=
  match run.get? l with
  | some c => isWordChar c
  | none =>
    match rest.head? with
    | some c => isWordChar c
    | none => false

/-- Is there a `\b` boundary after the first `l` characters of the
candidate run (`l ≥ 1`)? -/
def tokenEndBoundary (run : List Char) (l : Nat) (rest : List Char) : Bool :=
  match run.get? (l - 1) with
  | some c => isWordChar c != wnext run l rest
  | none => false

/-- Greedy `+` with backtracking against the trailing `\b`: the engine
first consumes the maximal run of token characters, then gives characters
back one at a time until the boundary holds.  Hence: the largest
`1 ≤ l ≤ run.length` whose end position is a boundary. -/
def findLen (run rest : List Char) : Option Nat :=
  (List.range (run.length + 1)).reverse.find? (fun l => l != 0 && tokenEndBoundary run l rest)

/-- Left-to-right `findall` scan for `\b[a-zA-Z'\-]+\b`.  `prevW` is the
word-character-ness of the previous character (false at the start of the
string); the scan advances one character after a failed attempt and jumps
over each match.  `fuel` only bounds the recursion; every step consumes at
least one character, so `fuel = length` never runs out. -/
def wordScanF : Nat → Bool → List Char → List (List Char)
  | _, _, [] => []
  | 0, _, _ :: _ => []
  | fuel + 1, prevW, c :: cs =>
    if (prevW != isWordChar c) && isTokChar c then
      let run := (c :: cs).takeWhile isTokChar
      let rest := (c :: cs).dropWhile isTokChar
      match findLen run rest with
      | some l => run.take l :: wordScanF fuel (isWordChar (run.getD (l - 1) ' ')) (run.drop l ++ rest)
      | none => wordScanF fuel (isWordChar c) cs
    else
      wordScanF fuel (isWordChar c) cs

/-- `Fog.identify_words(input_text)`. -/
def Fog.identify_words (input_text : String) : List String :=
  (wordScanF input_text.data.length false input_text.data).map List.asString

/-- `Fog.count_words(input_text)`. -/
def Fog.count_words (input_text : String) : Nat :=
  (Fog.identify_words input_text).length

/-! ### `Fog.identify_sentences`

Python source: `re.findall(r"\b[A-Z](?:[^\.!?]|\.\d)*[\.!?]", input_text)`. -/

/-- The terminator class `[\.!?]`. -/
def isSentTerm (c : Char) : Bool := c == '.' || c == '!' || c == '?'

/-- Backtracking matcher for `(?:[^\.!?]|\.\d)*[\.!?]` (the part of the
sentence pattern after the initial capital).  Greedy star: at each position
try `[^\.!?]` first, then `\.\d`, then exit the star and match the
terminator.  Returns `(consumed, rest)` of the leftmost-greedy match, or
`none` when every backtracking path fails. -/
def starTail : List Char → Option (List Char × List Char)
  | [] => none
  | c :: rest =>
    if !isSentTerm c then
      -- `[^\.!?]` consumes `c`.  If the continuation fails, the remaining
      -- alternatives (`\.\d` and the terminator) also fail on `c`, since
      -- `c` is neither `.` nor a terminator.
      match starTail rest with
      | some (co, r) => some (c :: co, r)
      | none => none
    else if c == '.' then
      match rest with
      | d :: rest2 =>
        if d.isDigit then
          match starTail rest2 with
          | some (co, r) => some ('.' :: d :: co, r)
          | none => some (['.'], rest)   -- exit the star; `[\.!?]` matches the dot
        else some (['.'], rest)
      | [] => some (['.'], rest)
    else
      some ([c], rest)

/-- Left-to-right `findall` scan for the sentence pattern.  The initial
`[A-Z]` is a word character, so the leading `\b` demands a non-word
predecessor. -/
def sentScanF : Nat → Bool → List Char → List (List Char)
  | _, _, [] => []
  | 0, _, _ :: _ => []
  | fuel + 1, prevW, c :: cs =>
    if !prevW && c.isUpper then
      match starTail cs with
      | some (co, r) => (c :: co) :: sentScanF fuel (isWordChar ((c :: co).getLastD ' ')) r
      | none => sentScanF fuel (isWordChar c) cs
    else
      sentScanF fuel (isWordChar c) cs

/-- `Fog.identify_sentences(input_text)`. -/
def Fog.identify_sentences (input_text : String) : List String :=
  (sentScanF input_text.data.length false input_text.data).map List.asString

/-- `Fog.count_sentences(input_text)`. -/
def Fog.count_sentences (input_text : String) : Nat :=
  (Fog.identify_sentences input_text).length

/-- `Fog.calculate_fog(text)`:
`0.4*(len(words)/len(sentences) + 100*len(complex_words)/len(words))`.
CPython raises `ZeroDivisionError` when a denominator is zero (the first
division is evaluated first); arithmetic is modelled exactly over `ℚ`,
with the literal `0.4` as `2/5`. -/
def Fog.calculate_fog (text : String) : PyRes ℚ :=
  let sentences := Fog.identify_sentences text
  let words := Fog.identify_words text
  let complex_words := words.filter Fog.is_complex_word
  if sentences.length = 0 then .exn .zeroDivisionError
  else if words.length = 0 then .exn .zeroDivisionError
  else .ok ((2/5) * ((words.length : ℚ) / (sentences.length : ℚ) +
      100 * (complex_words.length : ℚ) / (words.length : ℚ)))

/-! ### lxml document model

An lxml element has a tag, attributes, leading text (`.text`), children,
and trailing text belonging to its parent's content (`.tail`).  This is the
data model that every extractor manipulates after `lxml.html.fromstring`;
building the tree from raw markup is library behaviour external to the
code under verification. -/

inductive Html where
  | elem (tag : String) (attrs : List (String × String)) (text : Option String)
      (children : List Html) (tail : Option String)

/-- The element's tag. -/
def Html.tag : Html → String
  | .elem t _ _ _ _ => t

/-- The element's attribute list. -/
def Html.attrs : Html → List (String × String)
  | .elem _ a _ _ _ => a

/-- The element's leading text (`.text`). -/
def Html.text : Html → Option String
  | .elem _ _ tx _ _ => tx

/-- The element's children. -/
def Html.children : Html → List Html
  | .elem _ _ _ cs _ => cs

/-- The element's tail text (`.tail`). -/
def Html.tail : Html → Option String
  | .elem _ _ _ _ tl => tl

/-- Attribute lookup (attribute names are unique on an element). -/
def Html.attr (e : Html) (name : String) : Option String :=
  (e.attrs.find? (fun p => p.1 == name)).map (fun p => p.2)

mutual
/-- All nodes of the tree in document (preorder) order. -/
def preorder : Html → List Html
  | .elem t a tx cs tl => .elem t a tx cs tl :: preorderList cs
/-- Preorder traversal of a forest. -/
def preorderList : List Html → List Html
  | [] => []
  | c :: cs => preorder c ++ preorderList cs
end

mutual
/-- All nodes paired with their parent, in document order. -/
def nodesWP (parent : Option Html) : Html → List (Option Html × Html)
  | .elem t a tx cs tl => (parent, .elem t a tx cs tl) :: nodesWPList (some (.elem t a tx cs tl)) cs
/-- `nodesWP` over a forest. -/
def nodesWPList (parent : Option Html) : List Html → List (Option Html × Html)
  | [] => []
  | c :: cs => nodesWP parent c ++ nodesWPList parent cs
end

/-- XPath `//PTAG[@PATTR="PVAL"]/CTAG`: every `ctag` child of a `ptag`
element carrying attribute `pattr` with exact value `pval`, in document
order. -/
def xpathChildren (ptag pattr pval ctag : String) (root : Html) : List Html :=
  ((nodesWP none root).filter fun pn =>
    pn.2.tag == ctag &&
      (match pn.1 with
       | some p => p.tag == ptag && p.attr pattr == some pval
       | none => false)).map (fun pn => pn.2)

/-- XPath `//td[@class="text"]`: every such cell, in document order. -/
def xpathTdText (root : Html) : List Html :=
  (preorder root).filter fun n => n.tag == "td" && n.attr "class" == some "text"

/-- Serialised markup of one attribute. -/
def attrString (p : String × String) : String :=
  " " ++ p.1 ++ "=\x22" ++ p.2 ++ "\x22"

mutual
/-- `etree.tostring(element)`: serialised markup of the subtree, including
the element's tail (lxml's default `with_tail=True`).  The claims only
compare results of `tostring` with each other, never with raw lxml output,
so byte-level details of the serialiser (such as collapsing empty
elements) are not load-bearing. -/
def tostring : Html → String
  | .elem t a tx cs tl =>
    "<" ++ t ++ String.join (a.map attrString) ++ ">" ++ (tx.getD "") ++
      tostringList cs ++ "</" ++ t ++ ">" ++ (tl.getD "")
/-- Serialise a forest (each child followed by its tail via `tostring`). -/
def tostringList : List Html → String
  | [] => ""
  | c :: cs => tostring c ++ tostringList cs
end

mutual
/-- `element.text_content()`: concatenation of all text nodes below the
element (its own text, then recursively each child's content followed by
that child's tail).  The element's own tail is not included. -/
def text_content : Html → String
  | .elem _ _ tx cs _ => tx.getD "" ++ text_contentList cs
/-- `text_content` over a forest, interleaving child tails. -/
def text_contentList : List Html → String
  | [] => ""
  | c :: cs => text_content c ++ (Html.tail c).getD "" ++ text_contentList cs
end

/-! ### `BaseMDNA` -/

/-- The tag list of `BaseMDNA.get_text_from_html`. -/
def blockTags : List String :=
  ["tr", "th", "td", "a", "p", "div", "br", "h1", "h2", "h3", "h4", "h5"]

/-- One iteration of the mutation loop: `doc.findall(tag)` matches only
DIRECT children of `doc`, so exactly the direct children whose tag is in
the list get `element.text = (element.text or "") + "\n"` — the newline is
appended AFTER any existing text. -/
def addNewline : Html → Html
  | .elem t a tx cs tl =>
    if blockTags.contains t then .elem t a (some ((tx.getD "") ++ "\n")) cs tl
    else .elem t a tx cs tl

/-- `BaseMDNA.get_text_from_html`, applied to the parsed tree: mutate the
direct children, flatten to text, strip. -/
def BaseMDNA.get_text_from_html (doc : Html) : String :=
  match doc with
  | .elem t a tx cs tl => pyStrip (text_content (.elem t a tx (cs.map addNewline) tl))

/-- The value of an issuer's `extract_mdna`: Python either falls off the
end of the function (a bare `return`, i.e. the value `None`) or returns a
pair `(fragment-or-None, year-or-None)`. -/
inductive ExtractRet where
  | noneRet
  | pair (frag : Option String) (year : Option String)
deriving DecidableEq, Repr

/-- `BaseMDNA.get_mdna_text`: unpacks `cls.extract_mdna(...)` into two
variables — unpacking the non-iterable `None` raises `TypeError` — then
pipes a present fragment through `lxml.html.fromstring` (the external
parser, passed here as `parse`) and `get_text_from_html`. -/
def BaseMDNA.get_mdna_text (extract : Html → PyRes ExtractRet)
    (parse : String → Html) (doc : Html) : PyRes (Option String × Option String) :=
  match extract doc with
  | .exn e => .exn e
  | .ok .noneRet => .exn .typeError
  | .ok (.pair none y) => .ok (none, y)
  | .ok (.pair (some frag) y) => .ok (some (BaseMDNA.get_text_from_html (parse frag)), y)

/-! ### `AppleMDNA` (and its alias `FacebookMDNA`) -/

/-- Numeric value of a digit character. -/
def digitVal (c : Char) : Nat := c.toNat - 48

/-- The CPython `strptime` regex alternatives for `%m`
(`1[0-2]|0[1-9]|[1-9]`), in alternation order, each with the remaining
input. -/
def monthCands : List Char → List (Nat × List Char)
  | [] => []
  | [c] => if c.isDigit && 1 ≤ digitVal c then [(digitVal c, [])] else []
  | c1 :: c2 :: rest =>
    (if c1 == '1' && c2.isDigit && digitVal c2 ≤ 2 then [(10 + digitVal c2, rest)] else []) ++
    (if c1 == '0' && c2.isDigit && 1 ≤ digitVal c2 then [(digitVal c2, rest)] else []) ++
    (if c1.isDigit && 1 ≤ digitVal c1 then [(digitVal c1, c2 :: rest)] else [])

/-- The CPython `strptime` regex alternatives for `%d`
(`3[01]|[12]\d|0[1-9]|[1-9]`). -/
def dayCands : List Char → List (Nat × List Char)
  | [] => []
  | [c] => if c.isDigit && 1 ≤ digitVal c then [(digitVal c, [])] else []
  | c1 :: c2 :: rest =>
    (if c1 == '3' && c2.isDigit && digitVal c2 ≤ 1 then [(30 + digitVal c2, rest)] else []) ++
    (if (c1 == '1' || c1 == '2') && c2.isDigit then [(10 * digitVal c1 + digitVal c2, rest)] else []) ++
    (if c1 == '0' && c2.isDigit && 1 ≤ digitVal c2 then [(digitVal c2, rest)] else []) ++
    (if c1.isDigit && 1 ≤ digitVal c1 then [(digitVal c1, c2 :: rest)] else [])

/-- `%Y`: exactly four digits. -/
def yearParse : List Char → Option (Nat × List Char)
  | a :: b :: c :: d :: rest =>
    if a.isDigit && b.isDigit && c.isDigit && d.isDigit then
      some (1000 * digitVal a + 100 * digitVal b + 10 * digitVal c + digitVal d, rest)
    else none
  | _ => none

/-- The regex phase of `datetime.strptime(s, '%m/%d/%Y')`: ordered
backtracking over the `%m` and `%d` alternatives with literal `/`
separators, not anchored at the end.  Returns the first match in
backtracking order together with the unconsumed input. -/
def parseSyntax (cs : List Char) : Option (Nat × Nat × Nat × List Char) :=
  (monthCands cs).findSome? fun mc =>
    match mc.2 with
    | '/' :: r2 =>
      (dayCands r2).findSome? fun dc =>
        match dc.2 with
        | '/' :: r4 =>
          match yearParse r4 with
          | some (y, r5) => some (mc.1, dc.1, y, r5)
          | none => none
        | _ => none
    | _ => none

/-- Days in a month, with the Gregorian leap rule (as validated by
`datetime`). -/
def daysInMonth (y m : Nat) : Nat :=
  if m == 2 then (if y % 4 == 0 && (y % 100 != 0 || y % 400 == 0) then 29 else 28)
  else if m == 4 || m == 6 || m == 9 || m == 11 then 30
  else 31

/-- `datetime.strptime(s, '%m/%d/%Y')`: `none` models the raised
`ValueError` (no regex match, unconverted trailing data, or an invalid
calendar date / year 0 rejected by the `datetime` constructor). -/
def parseMDY (cs : List Char) : Option (Nat × Nat × Nat) :=
  match parseSyntax cs with
  | some (m, d, y, []) =>
    if 1 ≤ y && d ≤ daysInMonth y m then some (m, d, y) else none
  | _ => none

/-- `report_date > datetime(year=2019, month=1, day=1)`: `datetime`
comparison is lexicographic on (year, month, day). -/
def dateGtCutoff (m d y : Nat) : Bool :=
  2019 < y || (y == 2019 && (1 < m || (m == 1 && 1 < d)))

/-- `doc.xpath('//div[@class="ModuleFilingTitle"]/span')`, then
`title[0].text` guarded by `if not title or title[0].text is None`. -/
def firstTitleText (doc : Html) : Option String :=
  match xpathChildren "div" "class" "ModuleFilingTitle" "span" doc with
  | [] => none
  | t :: _ => t.text

/-- The cell search of `AppleMDNA._extract_mdna_after_2019`: the first
`//td[@class="text"]` whose present, stripped text starts with the
phrase. -/
def applePostCell (doc : Html) : Option Html :=
  (xpathTdText doc).find? fun td =>
    match td.text with
    | some t => "Summary of Significant Accounting Policies".data.isPrefixOf (pyStrip t).data
    | none => false

/-- `AppleMDNA._extract_mdna_after_2019`. -/
def AppleMDNA.extract_after_2019 (doc : Html) : Option String :=
  (applePostCell doc).map tostring

/-- `AppleMDNA._extract_mdna_before_2019`: the first child `div` (with
text present) of a `div` whose `id` is
`"divSummary of Significant Accounting Policies"`. -/
def AppleMDNA.extract_before_2019 (doc : Html) : Option String :=
  ((xpathChildren "div" "id" "divSummary of Significant Accounting Policies" "div" doc).find?
    (fun d => d.text.isSome)).map tostring

/-- `AppleMDNA.extract_mdna`.  A missing title (or a title span without
text) makes the function fall through with a bare `return`, i.e. the value
`None`; an all-whitespace title text raises `IndexError` on `split()[-1]`;
an unparsable trailing token raises `ValueError` inside `strptime`.  The
two-era gate is the STRICT comparison `report_date > datetime(2019, 1, 1)`. -/
def AppleMDNA.extract_mdna (doc : Html) : PyRes ExtractRet :=
  match firstTitleText doc with
  | none => .ok .noneRet
  | some txt =>
    match (pySplit txt).getLast? with
    | none => .exn .indexError
    | some ds =>
      match parseMDY ds.data with
      | none => .exn .valueError
      | some (m, d, y) =>
        if dateGtCutoff m d y then
          .ok (.pair (AppleMDNA.extract_after_2019 doc) (some (toString y)))
        else
          .ok (.pair (AppleMDNA.extract_before_2019 doc) (some (toString y)))

/-- `AppleMDNA.get_mdna_text` (inherited from `BaseMDNA`). -/
def AppleMDNA.get_mdna_text (parse : String → Html) (doc : Html) :
    PyRes (Option String × Option String) :=
  BaseMDNA.get_mdna_text AppleMDNA.extract_mdna parse doc

/-- `class FacebookMDNA(AppleMDNA): pass` — the subclass adds nothing, so
its `extract_mdna` IS Apple's method. -/
def FacebookMDNA.extract_mdna : Html → PyRes ExtractRet :=
  AppleMDNA.extract_mdna

/-- `FacebookMDNA.get_mdna_text` resolves through `BaseMDNA` with
`cls = FacebookMDNA`. -/
def FacebookMDNA.get_mdna_text (parse : String → Html) (doc : Html) :
    PyRes (Option String × Option String) :=
  BaseMDNA.get_mdna_text FacebookMDNA.extract_mdna parse doc

/-! ### `GoogleMDNA` -/

/-- Does `needle` occur in `hay` starting at position `k`? -/
def occursAt (needle hay : List Char) (k : Nat) : Bool :=
  needle.isPrefixOf (hay.drop k)

/-- Linear scan for the first occurrence of `needle` at a position `≥ k`;
`fuel` bounds the number of positions inspected. -/
def searchFrom (needle hay : List Char) : Nat → Nat → Option Nat
  | 0, _ => none
  | fuel + 1, k => if occursAt needle hay k then some k else searchFrom needle hay fuel (k + 1)

/-- The literal phrase of `GoogleMDNA.mdan_cmp`.  NOTE: the apostrophe in
the source pattern is U+2019 (a right single quotation mark), not the
ASCII apostrophe. -/
def mdnaPhrase : List Char :=
  "MANAGEMENT’S DISCUSSION AND ANALYSIS OF FINANCIAL CONDITION AND RESULTS OF OPERATIONS".data

/-- The literal `\<hr` tail of `GoogleMDNA.mdan_cmp` (`\<` is just `<`). -/
def hrOpen : List Char := "<hr".data

/-- `GoogleMDNA.extract_mdna`: `mdan_cmp.search(html_source)` with
`PHRASE.*?\<hr` under `re.DOTALL`.  The leftmost match starts at the first
occurrence of the phrase that is followed by `<hr`; since any later
occurrence of `<hr` also lies after an earlier phrase occurrence, that is
the first phrase occurrence whenever a match exists at all.  The lazy
`.*?` ends the match at the first `<hr` after the phrase.  Returns
`(span-or-None, None)` — the year is always absent. -/
def GoogleMDNA.extract_mdna (html_source : String) : Option String × Option String :=
  let cs := html_source.data
  match searchFrom mdnaPhrase cs (cs.length + 1) 0 with
  | none => (none, none)
  | some i =>
    match searchFrom hrOpen cs (cs.length + 1) (i + mdnaPhrase.length) with
    | none => (none, none)
    | some j => (some (((cs.drop i).take (j + hrOpen.length - i)).asString), none)

/-! ### Concrete documents and texts used by the claim checks -/

/-- Stand-in for the external `lxml.html.fromstring` used by
`get_mdna_text` to re-parse a serialised fragment; the claims below only
exercise paths on which it is never invoked. -/
def trivParse : String → Html := fun _ => .elem "div" [] none [] none

/-- A filing with no `ModuleFilingTitle` div at all
(`<html><p>hello</p></html>`). -/
def docNoTitle : Html := .elem "html" [] none [.elem "p" [] (some "hello") [] none] none

/-- A filing whose title span text ends in a token that is not an
`MM/DD/YYYY` date. -/
def docBadDate : Html :=
  .elem "html" [] none
    [.elem "div" [("class", "ModuleFilingTitle")] none
       [.elem "span" [] (some "Filed December 2020") [] none] none] none

/-- A post-2019 accounting-policies cell (`td class="text"` whose stripped
text starts with the phrase). -/
def td5 : Html :=
  .elem "td" [("class", "text")]
    (some "  Summary of Significant Accounting Policies and related notes") [] none

/-- A filing dated 10/15/2020 containing `td5`. -/
def doc5 : Html :=
  .elem "html" [] none
    [.elem "div" [("class", "ModuleFilingTitle")] none
       [.elem "span" [] (some "Annual Report 10/15/2020") [] none] none,
     .elem "table" [] none [.elem "tr" [] none [td5] none] none] none

/-- A matching post-2019 cell inside `docB`. -/
def tdB : Html :=
  .elem "td" [("class", "text")]
    (some "Summary of Significant Accounting Policies overview") [] none

/-- A filing dated exactly 01/01/2019 (the cutoff date itself) containing
the matching cell `tdB` and no before-era `divSummary` division. -/
def docB : Html :=
  .elem "html" [] none
    [.elem "div" [("class", "ModuleFilingTitle")] none
       [.elem "span" [] (some "Filed 01/01/2019") [] none] none,
     tdB] none

/-- The parse tree lxml builds for
`<table><tr><td>A</td><td>B</td></tr></table>`: libxml2 inserts no
`tbody`, so the `tr` is a direct child of the `table` root and the `td`
cells are grandchildren. -/
def tableTree : Html :=
  .elem "table" [] none
    [.elem "tr" [] none
       [.elem "td" [] (some "A") [] none,
        .elem "td" [] (some "B") [] none] none] none

/-- The parse tree of `<div>X<p>A</p>Y</div>`: used to observe where the
injected newline lands relative to the text of a matched direct child. -/
def divTree : Html :=
  .elem "div" [] (some "X") [.elem "p" [] (some "A") [] (some "Y")] none

/-- The sentence-tokenizer example text of the specification. -/
def c2text : String := "This is Mr. Smith\x27s report. It scores 3.5 points."

/-- The word shape asserted by claim C9: non-empty, first and last
character an ASCII letter, all characters letters, apostrophes or
hyphens.  (Stated from the claim, to be compared against the code.) -/
def specWordShape (w : String) : Bool :=
  !w.data.isEmpty &&
  (match w.data.head? with | some c => c.isAlpha | none => false) &&
  (match w.data.getLast? with | some c => c.isAlpha | none => false) &&
  w.data.all (fun c => c.isAlpha || c == '\x27' || c == '-')

/-- A text with exactly 2 sentences, 20 words, and 4 complex words
(the four occurrences of "banana" have three matched syllables each). -/
def t7 : String :=
  "Banana banana banana banana is a good snack for you today and we like it so much. We eat it."

/-- A Google filing containing the U+2019 phrase followed by `<hr`. -/
def g3doc : String :=
  "MANAGEMENT’S DISCUSSION AND ANALYSIS OF FINANCIAL CONDITION AND RESULTS OF OPERATIONS abc <hr>tail"

/-- The ASCII-apostrophe variant of the phrase, as claim C3 words it. -/
def asciiMdnaPhrase : List Char :=
  "MANAGEMENT\x27S DISCUSSION AND ANALYSIS OF FINANCIAL CONDITION AND RESULTS OF OPERATIONS".data

/-- A Google filing containing only the ASCII-apostrophe variant of the
phrase, followed by `<hr`. -/
def gAsciiDoc : String :=
  "MANAGEMENT\x27S DISCUSSION AND ANALYSIS OF FINANCIAL CONDITION AND RESULTS OF OPERATIONS abc <hr>tail"

set_option maxRecDepth 1000000

/-! ### Helper lemmas -/

/-- Every match of the syllable pattern contains exactly one character of
the vowel class, and matches do not overlap, so the number of matches is
bounded by the number of vowel occurrences. -/
theorem syllableScan_le_vowelCount (b : Bool) (cs : List Char) :
    syllableScan b cs ≤ (cs.filter isVowel).length := by
  induction b, cs using syllableScan.induct <;>
    simp_all [syllableScan, List.filter_cons] <;>
    first
      | omega
      | (split <;> simp_all <;> omega)

/-- Every token produced by the word scan is a non-empty list of
characters of the token class `[a-zA-Z'\-]`. -/
theorem wordScanF_tokens : ∀ (fuel : Nat) (prevW : Bool) (cs : List Char) (tok : List Char),
    tok ∈ wordScanF fuel prevW cs → tok ≠ [] ∧ tok.all isTokChar = true := by
  intro fuel
  induction fuel with
  | zero =>
    intro prevW cs tok h
    cases cs <;> simp [wordScanF] at h
  | succ n ih =>
    intro prevW cs tok h
    cases cs with
    | nil => simp [wordScanF] at h
    | cons c cs2 =>
      rw [wordScanF] at h
      split at h
      · rename_i hcond
        have hc : isTokChar c = true := by
          simp only [Bool.and_eq_true] at hcond
          exact hcond.2
        dsimp only at h
        split at h
        · rename_i l heq
          rcases List.mem_cons.mp h with h1 | h2
          · have hp := List.find?_some heq
            simp only [Bool.and_eq_true, ne_eq, bne_iff_ne] at hp
            obtain ⟨m, rfl⟩ := Nat.exists_eq_succ_of_ne_zero hp.1
            subst h1
            refine ⟨?_, ?_⟩
            · rw [List.takeWhile_cons_of_pos hc]
              simp
            · rw [List.all_eq_true]
              intro x hx
              exact List.mem_takeWhile_imp (List.take_subset _ _ hx)
          · exact ih _ _ _ h2
        · exact ih _ _ _ h
      · exact ih _ _ _ h

/-- Soundness of the linear search: a hit occurs at the returned position,
which is at least the start position, and no position between them is a
hit. -/
theorem searchFrom_eq_some {needle hay : List Char} :
    ∀ {fuel k i : Nat}, searchFrom needle hay fuel k = some i →
      occursAt needle hay i = true ∧ k ≤ i ∧
        ∀ j, k ≤ j → j < i → occursAt needle hay j = false := by
  intro fuel
  induction fuel with
  | zero =>
    intro k i h
    simp [searchFrom] at h
  | succ n ih =>
    intro k i h
    rw [searchFrom] at h
    split at h
    · rename_i hocc
      cases h
      exact ⟨hocc, Nat.le_refl _, fun j hj1 hj2 => by omega⟩
    · rename_i hocc
      obtain ⟨h1, h2, h3⟩ := ih h
      refine ⟨h1, by omega, fun j hj1 hj2 => ?_⟩
      rcases Nat.eq_or_lt_of_le hj1 with heq | hlt
      · subst heq
        simpa using hocc
      · exact h3 j hlt hj2

/-- Completeness of the linear search: given enough fuel, an existing hit
at or after the start position guarantees a result no later than it. -/
theorem searchFrom_complete {needle hay : List Char} :
    ∀ {fuel k m : Nat}, occursAt needle hay m = true → k ≤ m → m < k + fuel →
      ∃ i, searchFrom needle hay fuel k = some i ∧ i ≤ m := by
  intro fuel
  induction fuel with
  | zero =>
    intro k m h1 h2 h3
    exfalso
    omega
  | succ n ih =>
    intro k m h1 h2 h3
    rw [searchFrom]
    split
    · exact ⟨k, rfl, h2⟩
    · rename_i hocc
      have hkm : k ≠ m := by
        rintro rfl
        simp [h1] at hocc
      obtain ⟨i, hi1, hi2⟩ := @ih (k + 1) m h1 (by omega) (by omega)
      exact ⟨i, hi1, hi2⟩

/-- A non-empty needle can only occur strictly inside the haystack. -/
theorem occursAt_lt_length {needle hay : List Char} {k : Nat} (hne : needle ≠ [])
    (h : occursAt needle hay k = true) : k < hay.length := by
  unfold occursAt at h
  have hpre : needle <+: hay.drop k := by
    rwa [List.isPrefixOf_iff_prefix] at h
  have hlen := hpre.length_le
  have hpos : 0 < needle.length := List.length_pos.mpr hne
  simp [List.length_drop] at hlen
  omega

/-! ### Claim C1 -/

/-- Claim C1: the claim asserts that whenever the shared title convention
fails (no `ModuleFilingTitle` span, or an unparsable trailing date token),
`extract_mdna` / `get_mdna_text` yield an explicit absent result and never
raise.  The code contradicts this: with the title missing, `extract_mdna`
falls through with a bare `return` (the value `None`) and `get_mdna_text`
raises `TypeError` unpacking it; with an unparsable date token,
`strptime` raises `ValueError`, which propagates out of both functions. -/
theorem apple_title_failure_raises :
    AppleMDNA.get_mdna_text trivParse docNoTitle = .exn .typeError ∧
    AppleMDNA.extract_mdna docBadDate = .exn .valueError ∧
    AppleMDNA.get_mdna_text trivParse docBadDate = .exn .valueError :=
  ⟨rfl, rfl, rfl⟩

/-! ### Claim C2 -/

/-- Claim C2 (counterexample): on the text
"This is Mr. Smith's report. It scores 3.5 points." the sentence
tokenizer does NOT return exactly two sentences — the period of the
abbreviation "Mr." also terminates a match. -/
theorem sentences_example_count_ne_two :
    (Fog.identify_sentences c2text).length ≠ 2 := by decide

/-- Claim C2 (amended): on that text `identify_sentences` returns exactly
three sentences; "Mr." causes a break, while the embedded "3.5" (a period
immediately followed by a digit) does not — the third returned sentence
contains "3.5 points." intact. -/
theorem sentences_example_three :
    Fog.identify_sentences c2text =
      ["This is Mr.", "Smith\x27s report.", "It scores 3.5 points."] := by decide

/-! ### Claim C3 -/

/-- Claim C3 (counterexample): a document containing the literal ASCII
phrase (apostrophe U+0027) followed by `<hr` is NOT matched — the
compiled pattern spells the phrase with the right single quotation mark
U+2019 — so `extract_mdna` returns `(None, None)` instead of the span. -/
theorem google_ascii_phrase_no_match :
    occursAt asciiMdnaPhrase gAsciiDoc.data 0 = true ∧
    occursAt hrOpen gAsciiDoc.data (asciiMdnaPhrase.length + 5) = true ∧
    GoogleMDNA.extract_mdna gAsciiDoc = (none, none) :=
  ⟨by decide, by decide, rfl⟩

/-- Claim C3 (amended, with the phrase spelled with U+2019 as in the
source): on every document containing the phrase followed somewhere later
by `<hr`, `extract_mdna` returns the span from the first occurrence of
the phrase through the first subsequent `<hr` (the lazy `.*?`), and an
absent year. -/
theorem google_extract_found (s : String) (i j : Nat)
    (hp : occursAt mdnaPhrase s.data i = true)
    (hh : occursAt hrOpen s.data j = true)
    (hij : i + mdnaPhrase.length ≤ j) :
    ∃ i0 j0,
      occursAt mdnaPhrase s.data i0 = true ∧ i0 ≤ i ∧
      (∀ k, k < i0 → occursAt mdnaPhrase s.data k = false) ∧
      occursAt hrOpen s.data j0 = true ∧ i0 + mdnaPhrase.length ≤ j0 ∧ j0 ≤ j ∧
      (∀ k, i0 + mdnaPhrase.length ≤ k → k < j0 → occursAt hrOpen s.data k = false) ∧
      GoogleMDNA.extract_mdna s =
        (some (((s.data.drop i0).take (j0 + hrOpen.length - i0)).asString), none) := by
  have hi : i < s.data.length := occursAt_lt_length (by decide) hp
  have hj : j < s.data.length := occursAt_lt_length (by decide) hh
  obtain ⟨i0, hs1, hi0le⟩ :=
    @searchFrom_complete mdnaPhrase s.data (s.data.length + 1) 0 i hp (Nat.zero_le _) (by omega)
  obtain ⟨ho1, -, hleast1⟩ := searchFrom_eq_some hs1
  obtain ⟨j0, hs2, hj0le⟩ :=
    @searchFrom_complete hrOpen s.data (s.data.length + 1) (i0 + mdnaPhrase.length) j hh
      (by omega) (by omega)
  obtain ⟨ho2, hge2, hleast2⟩ := searchFrom_eq_some hs2
  refine ⟨i0, j0, ho1, hi0le, ?_, ho2, hge2, hj0le, ?_, ?_⟩
  · intro k hk
    exact hleast1 k (Nat.zero_le _) hk
  · intro k hk1 hk2
    exact hleast2 k hk1 hk2
  · unfold GoogleMDNA.extract_mdna
    dsimp only
    rw [hs1]
    dsimp only
    rw [hs2]

/-- Claim C3 (witness): the amended theorem applied to a concrete filing
with the U+2019 phrase at position 0 and `<hr` five characters past the
phrase. -/
theorem google_extract_found_witness :
    occursAt mdnaPhrase g3doc.data 0 = true ∧
    occursAt hrOpen g3doc.data (mdnaPhrase.length + 5) = true ∧
    0 + mdnaPhrase.length ≤ mdnaPhrase.length + 5 ∧
    (∃ i0 j0,
      occursAt mdnaPhrase g3doc.data i0 = true ∧ i0 ≤ 0 ∧
      (∀ k, k < i0 → occursAt mdnaPhrase g3doc.data k = false) ∧
      occursAt hrOpen g3doc.data j0 = true ∧ i0 + mdnaPhrase.length ≤ j0 ∧
        j0 ≤ mdnaPhrase.length + 5 ∧
      (∀ k, i0 + mdnaPhrase.length ≤ k → k < j0 → occursAt hrOpen g3doc.data k = false) ∧
      GoogleMDNA.extract_mdna g3doc =
        (some (((g3doc.data.drop i0).take (j0 + hrOpen.length - i0)).asString), none)) :=
  ⟨by decide, by decide, by decide,
    google_extract_found g3doc 0 (mdnaPhrase.length + 5) (by decide) (by decide) (by decide)⟩

/-! ### Claim C4 -/

/-- Claim C4 (counterexample): on the parse tree of
`<table><tr><td>A</td><td>B</td></tr></table>` the result is the plain
string "AB" — it contains no newline at all, so neither cell's text is
preceded by a line break.  (`doc.findall(tag)` matches only DIRECT
children of the root, so the `td` cells are never touched; the newline
injected into the `tr` is stripped as leading whitespace.) -/
theorem table_cells_not_newline_separated :
    BaseMDNA.get_text_from_html tableTree = "AB" ∧
    ("AB".data.contains '\n') = false :=
  ⟨rfl, by decide⟩

/-- Claim C4 (amended): `get_text_from_html` appends a newline AFTER the
leading text of each DIRECT child of the root whose tag is in the block
list (descendants are untouched).  On the table input the output is "AB";
on `<div>X<p>A</p>Y</div>` the direct child `p` yields "XA\nY" — the
newline follows the matched element's text rather than preceding it. -/
theorem get_text_from_html_direct_children_append :
    BaseMDNA.get_text_from_html tableTree = "AB" ∧
    BaseMDNA.get_text_from_html divTree = "XA\nY" :=
  ⟨rfl, rfl⟩

/-! ### Claim C5 -/

/-- Claim C5 (counterexample): a filing dated exactly 01/01/2019 — on the
cutoff, hence "on or after" it — containing a matching `td class="text"`
cell is routed to the BEFORE-cutoff strategy (the code compares with a
strict `>`), so extraction returns no fragment rather than the cell's
markup. -/
theorem apple_cutoff_boundary_uses_before :
    applePostCell docB = some tdB ∧
    AppleMDNA.extract_mdna docB = .ok (.pair none (some "2019")) ∧
    AppleMDNA.extract_mdna docB ≠ .ok (.pair (some (tostring tdB)) (some "2019")) := by
  have h2 : AppleMDNA.extract_mdna docB = .ok (.pair none (some "2019")) := rfl
  refine ⟨rfl, h2, ?_⟩
  rw [h2]
  simp

/-- Claim C5 (amended): for every document whose parsed filing date is
STRICTLY after 2019-01-01, extraction uses the post-cutoff strategy: the
first `td` of class "text" whose trimmed text starts with "Summary of
Significant Accounting Policies" is returned as serialised markup,
together with the 4-digit year string. -/
theorem apple_post_cutoff (doc td : Html) (txt ds : String) (m d y : Nat)
    (h1 : firstTitleText doc = some txt)
    (h2 : (pySplit txt).getLast? = some ds)
    (h3 : parseMDY ds.data = some (m, d, y))
    (h4 : dateGtCutoff m d y = true)
    (h5 : applePostCell doc = some td) :
    AppleMDNA.extract_mdna doc = .ok (.pair (some (tostring td)) (some (toString y))) := by
  unfold AppleMDNA.extract_mdna
  rw [h1]
  dsimp only
  rw [h2]
  dsimp only
  rw [h3]
  dsimp only
  rw [if_pos h4]
  unfold AppleMDNA.extract_after_2019
  rw [h5]
  rfl

/-- Claim C5 (witness): the amended theorem applied to a filing whose
title span ends in "10/15/2020" and which contains the matching cell
`td5`: extraction returns that cell's markup and year "2020". -/
theorem apple_post_cutoff_witness :
    firstTitleText doc5 = some "Annual Report 10/15/2020" ∧
    (pySplit "Annual Report 10/15/2020").getLast? = some "10/15/2020" ∧
    parseMDY "10/15/2020".data = some (10, 15, 2020) ∧
    dateGtCutoff 10 15 2020 = true ∧
    applePostCell doc5 = some td5 ∧
    AppleMDNA.extract_mdna doc5 = .ok (.pair (some (tostring td5)) (some "2020")) :=
  ⟨rfl, rfl, rfl, rfl, rfl,
    apple_post_cutoff doc5 td5 "Annual Report 10/15/2020" "10/15/2020" 10 15 2020
      rfl rfl rfl rfl rfl⟩

/-! ### Claim C6 -/

/-- Claim C6: `calculate_fog(text)` hits the division-by-zero failure if
and only if `identify_sentences(text)` is empty or `identify_words(text)`
is empty; when both are non-empty the computation completes with a
value. -/
theorem fog_zero_division (text : String) :
    (Fog.calculate_fog text = .exn .zeroDivisionError ↔
      Fog.identify_sentences text = [] ∨ Fog.identify_words text = []) ∧
    (Fog.identify_sentences text ≠ [] → Fog.identify_words text ≠ [] →
      ∃ q : ℚ, Fog.calculate_fog text = .ok q) := by
  constructor
  · constructor
    · intro h
      by_cases hs : (Fog.identify_sentences text).length = 0
      · exact Or.inl (List.length_eq_zero.mp hs)
      · by_cases hw : (Fog.identify_words text).length = 0
        · exact Or.inr (List.length_eq_zero.mp hw)
        · unfold Fog.calculate_fog at h
          simp [hs, hw] at h
    · intro h
      by_cases hs : (Fog.identify_sentences text).length = 0
      · unfold Fog.calculate_fog
        simp [hs]
      · rcases h with h | h
        · exact absurd (by simp [h]) hs
        · unfold Fog.calculate_fog
          simp [hs, h]
  · intro hs hw
    have hs2 : (Fog.identify_sentences text).length ≠ 0 := by
      simpa [List.length_eq_zero] using hs
    have hw2 : (Fog.identify_words text).length ≠ 0 := by
      simpa [List.length_eq_zero] using hw
    unfold Fog.calculate_fog
    simp [hs2, hw2]

/-- Claim C6 (witness): the empty text has no sentences, so the scorer
raises; "Hi." has a sentence and a word, so it completes. -/
theorem fog_zero_division_witness :
    Fog.calculate_fog "" = .exn .zeroDivisionError ∧
    (∃ q : ℚ, Fog.calculate_fog "Hi." = .ok q) :=
  ⟨(fog_zero_division "").1.mpr (Or.inl (by decide)),
    (fog_zero_division "Hi.").2 (by decide) (by decide)⟩

/-! ### Claim C7 -/

/-- Claim C7: whenever the sentence and word lists are non-empty,
`calculate_fog` equals `0.4 * (|W|/|S| + 100*|C|/|W|)` (with `0.4 = 2/5`
exactly); in particular a text with 2 sentences, 20 words and 4 complex
words scores exactly 12. -/
theorem fog_formula (text : String)
    (hS : 0 < (Fog.identify_sentences text).length)
    (hW : 0 < (Fog.identify_words text).length) :
    Fog.calculate_fog text = .ok ((2/5) *
      (((Fog.identify_words text).length : ℚ) / ((Fog.identify_sentences text).length : ℚ) +
        100 * (((Fog.identify_words text).filter Fog.is_complex_word).length : ℚ) /
          ((Fog.identify_words text).length : ℚ))) ∧
    ((Fog.identify_sentences text).length = 2 → (Fog.identify_words text).length = 20 →
      ((Fog.identify_words text).filter Fog.is_complex_word).length = 4 →
      Fog.calculate_fog text = .ok 12) := by
  have hs2 : (Fog.identify_sentences text).length ≠ 0 := by omega
  have hw2 : (Fog.identify_words text).length ≠ 0 := by omega
  constructor
  · unfold Fog.calculate_fog
    simp [hs2, hw2]
  · intro e2 e20 e4
    unfold Fog.calculate_fog
    simp [hs2, hw2, e2, e20, e4]
    norm_num

/-- Claim C7 (witness): `t7` has exactly 2 sentences, 20 words, and 4
complex words, and scores exactly 12. -/
theorem fog_formula_witness :
    0 < (Fog.identify_sentences t7).length ∧ 0 < (Fog.identify_words t7).length ∧
    Fog.calculate_fog t7 = .ok 12 :=
  ⟨by decide, by decide,
    (fog_formula t7 (by decide) (by decide)).2 (by decide) (by decide) (by decide)⟩

/-! ### Claim C8 -/

/-- Claim C8: `FacebookMDNA` is a behavioural alias of `AppleMDNA` — the
subclass body is `pass`, so both `extract_mdna` and the inherited
`get_mdna_text` agree with Apple's on every input. -/
theorem facebook_alias_apple :
    ∀ (doc : Html) (parse : String → Html),
      FacebookMDNA.extract_mdna doc = AppleMDNA.extract_mdna doc ∧
      FacebookMDNA.get_mdna_text parse doc = AppleMDNA.get_mdna_text parse doc :=
  fun _ _ => ⟨rfl, rfl⟩

/-! ### Claim C9 -/

/-- Claim C9 (counterexample): on the text "1'a" the single returned token
is "'a", which begins with an apostrophe, so not every token begins and
ends with an ASCII letter.  (The boundary `\b` holds between the digit
`1`, a word character, and the apostrophe, a non-word character.) -/
theorem identify_words_shape_counterexample :
    Fog.identify_words "1\x27a" = ["\x27a"] ∧
    (Fog.identify_words "1\x27a").all specWordShape = false :=
  ⟨by decide, by decide⟩

/-- Claim C9 (amended): every token returned by `identify_words` is a
non-empty string over the class of ASCII letters, apostrophes and
hyphens; a leading or trailing apostrophe or hyphen CAN occur (exactly
when the character beyond it is a digit or underscore). -/
theorem identify_words_token_chars (text w : String) (hw : w ∈ Fog.identify_words text) :
    w.data ≠ [] ∧ w.data.all isTokChar = true := by
  obtain ⟨tok, htok, hw2⟩ := List.mem_map.mp hw
  subst hw2
  exact wordScanF_tokens _ _ _ _ htok

/-- Claim C9 (witness): the amended theorem applied to the token "ab" of
the text "ab cd". -/
theorem identify_words_token_chars_witness :
    ("ab" ∈ Fog.identify_words "ab cd") ∧
    ("ab".data ≠ [] ∧ "ab".data.all isTokChar = true) :=
  ⟨by decide, identify_words_token_chars "ab cd" "ab" (by decide)⟩

/-! ### Claim C10 -/

/-- Claim C10: `count_syllables(word)` is at most the number of vowel
characters (a, e, i, o, u, y in either case) occurring in the word — each
non-overlapping match of the syllable pattern consumes exactly one vowel
occurrence — and in particular it returns 0 on any string with no
vowels. -/
theorem count_syllables_le_vowels (w : String) :
    Fog.count_syllables w ≤ (w.data.filter isVowel).length ∧
    ((w.data.filter isVowel).length = 0 → Fog.count_syllables w = 0) := by
  have h := syllableScan_le_vowelCount true w.data
  exact ⟨h, fun h0 => by unfold Fog.count_syllables; omega⟩

/-- Claim C10 (witness): the all-consonant string "bcdfg" has no vowels
and zero counted syllables. -/
theorem count_syllables_le_vowels_witness :
    ("bcdfg".data.filter isVowel).length = 0 ∧ Fog.count_syllables "bcdfg" = 0 :=
  ⟨by decide, (count_syllables_le_vowels "bcdfg").2 (by decide)⟩
